import Mathlib

/-!
# Verification of `promtestsource`

A shallow embedding of the measurement-update logic of the
`promtestsource` utility: a single manually-driven Prometheus metric
(gauge, counter or histogram) exposed over HTTP, updated from a console
input loop.

Real numeric state (Go `float64`) is modelled with exact rationals `ℚ`;
`strconv.ParseFloat` is modelled by a decimal parser over `ℚ` covering
the plain-decimal subset of its grammar (optional sign, digits with an
optional fraction dot, optional decimal exponent).  Fallible parsing
returns `Option`.
-/

/-- One decimal digit of a character, `none` for a non-digit.
Models the per-character digit handling inside `strconv.ParseFloat`. -/
def digitVal (c : Char) : Option ℕ :=
  if c.isDigit then some (c.toNat - 48) else none

/-- Parses a non-empty all-digit character list as a natural number;
`none` when the list is empty or contains a non-digit. -/
def parseDigitsNat (cs : List Char) : Option ℕ :=
  match cs with
  | [] => none
  | _ :: _ => cs.foldlM (fun acc c => (digitVal c).map (fun d => acc * 10 + d)) 0

/-- Consumes an optional leading sign; returns `(negative, rest)`. -/
def parseSign (cs : List Char) : Bool × List Char :=
  match cs with
  | '-' :: rest => (true, rest)
  | '+' :: rest => (false, rest)
  | _ => (false, cs)

/-- Parses the mantissa part `digits [. digits]` (at least one digit
overall, at most one dot): returns the digit string read as a natural
number together with the number of fraction digits, so that the mantissa
value is `m / 10 ^ frac`. -/
def parseMantissa (cs : List Char) : Option (ℕ × ℕ) :=
  match cs.span (fun c => c != '.') with
  | (intPart, []) => (parseDigitsNat intPart).map (fun n => (n, 0))
  | (intPart, _ :: fracPart) =>
    if intPart.isEmpty && fracPart.isEmpty then none
    else do
      let ip ← if intPart.isEmpty then some 0 else parseDigitsNat intPart
      let fp ← if fracPart.isEmpty then some 0 else parseDigitsNat fracPart
      some (ip * 10 ^ fracPart.length + fp, fracPart.length)

/-- Model of Go `strconv.ParseFloat(s, 64)` on the plain-decimal subset
of its grammar: `[+-]? (digits [. digits?] | . digits) ([eE][+-]?digits)?`.
Returns the exactly-represented rational value `±m · 10^(e−frac)`,
`none` on malformed input (e.g. `"abc"`, `""`). -/
def parseFloat (s : String) : Option ℚ :=
  let (neg, cs) := parseSign s.data
  let (mant, expPart) := cs.span (fun c => c != 'e' && c != 'E')
  do
    let (m, frac) ← parseMantissa mant
    let e ← match expPart with
      | [] => some (0 : ℤ)
      | _ :: ecs =>
        let (eneg, ecs) := parseSign ecs
        (parseDigitsNat ecs).map (fun n => if eneg then -(n : ℤ) else (n : ℤ))
    let sm : ℤ := if neg then -(m : ℤ) else (m : ℤ)
    let e2 : ℤ := e - (frac : ℤ)
    some (if 0 ≤ e2 then Rat.divInt (sm * (10 : ℤ) ^ e2.toNat) 1
          else Rat.divInt sm ((10 : ℤ) ^ (-e2).toNat))

/-!
## Gauge input loop

`handleGaugeInput` keeps `currentValue` (initially `0`), and for each
input line: if the line starts with `"+"` the prefix is stripped and the
parsed value is added, otherwise the parsed value replaces the current
value; a line whose (stripped) text fails to parse is skipped
(`continue`), leaving the value unchanged.  After each accepted line the
gauge's exported value is set to `currentValue`, so the loop state *is*
the exported value.
-/

/-- The text `handleGaugeInput` hands to `ParseFloat`: the line with one
leading `"+"` stripped (`strings.TrimPrefix`). -/
def gaugeTextToParse (line : String) : String :=
  match line.data with
  | '+' :: rest => String.mk rest
  | _ => line

/-- Whether the line starts with `"+"` (`strings.HasPrefix`): the gauge
loop then adds instead of setting. -/
def isAddLine (line : String) : Bool :=
  match line.data with
  | '+' :: _ => true
  | _ => false

/-- One iteration of `handleGaugeInput` on input `line` with current
value `current`: mirrors the `strings.HasPrefix "+"` /
`strings.TrimPrefix "+"` / `strconv.ParseFloat` / add-or-set sequence;
on a parse error the iteration is a no-op (`continue`). -/
def gaugeStep (current : ℚ) (line : String) : ℚ :=
  match parseFloat (gaugeTextToParse line) with
  | none => current
  | some v => if isAddLine line then current + v else v

/-- The gauge input loop over a list of input lines, from value `c`. -/
def gaugeRun (c : ℚ) (lines : List String) : ℚ :=
  lines.foldl gaugeStep c

/-!
## Histogram

`handleHistogramInput` parses each line and, on success, calls
`Histogram.Observe` from the Prometheus client library; a parse failure
skips the line (`continue`).  The classic-histogram state and the bucket
update rule live in that external library, not in this repository.
-/

/-- Classic-histogram state: fixed increasing bucket upper bounds with
their cumulative counts, a total observation count and a running sum. -/
structure HistogramState where
  boundaries : List ℚ
  bucketCounts : List ℕ
  totalCount : ℕ
  sum : ℚ
deriving DecidableEq

/-- Modelled from the spec: the Prometheus client library's
`Histogram.Observe` is not part of this repository's sources; per the
spec, `observe(x)` increments the cumulative count of every bucket whose
upper bound is `≥ x`, increments the total count and adds `x` to the
running sum. -/
def observe (h : HistogramState) (x : ℚ) : HistogramState :=
  { h with
    bucketCounts :=
      (h.boundaries.zip h.bucketCounts).map
        (fun bc => if x ≤ bc.1 then bc.2 + 1 else bc.2)
    totalCount := h.totalCount + 1
    sum := h.sum + x }

/-- One iteration of `handleHistogramInput`: parse the line; observe the
value on success, leave the histogram untouched on a parse error. -/
def histogramStep (h : HistogramState) (line : String) : HistogramState :=
  match parseFloat line with
  | none => h
  | some v => observe h v

/-- The histogram input loop over a list of input lines. -/
def histogramRun (h : HistogramState) (lines : List String) : HistogramState :=
  lines.foldl histogramStep h

/-!
## Counter

`handleCounterInput` creates a one-second ticker and increments the
counter once per tick (`for range ticker.C { counter.Inc() }`).  It
never reads standard input: operator-typed lines reach no code path in
counter mode.  We model the events the process can see in counter mode —
ticker ticks and typed input lines — and the counter's reaction to each.
-/

/-- An event visible to the counter handler: a one-second ticker tick,
or a line typed by the operator (which `handleCounterInput` never
reads). -/
inductive CounterEvent where
  | tick
  | inputLine (s : String)
deriving DecidableEq

/-- The counter's reaction to one event: `counter.Inc()` on a tick;
typed lines are not read by `handleCounterInput`, so they leave the
counter unchanged. -/
def counterStep (c : ℕ) (e : CounterEvent) : ℕ :=
  match e with
  | .tick => c + 1
  | .inputLine _ => c

/-- The counter's value after a sequence of events, from its initial
value `0` (a fresh Prometheus counter starts at zero). -/
def counterRun (events : List CounterEvent) : ℕ :=
  events.foldl counterStep 0

/-- The number of ticker ticks in an event sequence. -/
def tickCount (events : List CounterEvent) : ℕ :=
  (events.filter (fun e => e == CounterEvent.tick)).length

/-!
## Configuration validation and startup

`Config` carries the CLI flags.  `Validate` rejects an unknown metric
type, then splits the `-histogram-type` flag on commas and rejects any
unknown histogram type name — unconditionally, whatever the metric
type.  In `main`, a validation error is printed with `fmt.Println` and
`main` simply `return`s: the process exits normally (status 0) without
binding or starting the HTTP server.
-/

/-- The metric kinds (`MetricType` in the source). -/
inductive MetricType where
  | Gauge
  | Histogram
  | Counter
deriving DecidableEq

/-- The histogram kinds (`HistogramType` in the source). -/
inductive HistogramType where
  | ClassicHistogram
  | NativeHistogramStandardBuckets
deriving DecidableEq

/-- The `metricTypes` lookup map. -/
def metricTypes (s : String) : Option MetricType :=
  if s = "counter" then some .Counter
  else if s = "gauge" then some .Gauge
  else if s = "histogram" then some .Histogram
  else none

/-- The `histogramTypes` lookup map. -/
def histogramTypes (s : String) : Option HistogramType :=
  if s = "classic" then some .ClassicHistogram
  else if s = "native" then some .NativeHistogramStandardBuckets
  else none

/-- The CLI configuration (`Config` in the source). -/
structure Config where
  ListenAddress : String
  MetricType : String
  HistogramType : String
  Username : String
  Password : String

/-- Splits a character list at every comma; the empty list yields one
empty field, like Go's `strings.Split`. -/
def splitCharsOnComma : List Char → List (List Char)
  | [] => [[]]
  | c :: rest =>
    if c = ',' then [] :: splitCharsOnComma rest
    else
      match splitCharsOnComma rest with
      | [] => [[c]]
      | g :: gs => (c :: g) :: gs

/-- Models Go `strings.Split(s, ",")`: the comma-separated fields of
`s`; `""` yields `[""]`, so the split is never empty. -/
def splitOnComma (s : String) : List String :=
  (splitCharsOnComma s.data).map String.mk

/-- `Validate`: `none` means the configuration is accepted; `some msg`
is the error returned.  The metric type is checked first; then every
comma-separated component of the histogram-type flag is looked up,
whatever the metric type, and the first unknown one is reported. -/
def Validate (cfg : Config) : Option String :=
  match metricTypes cfg.MetricType with
  | none => some ("unknown metric type " ++ cfg.MetricType)
  | some _ =>
    let hTypes := splitOnComma cfg.HistogramType
    if hTypes.isEmpty then some "histogram type needs to be specified"
    else
      match hTypes.find? (fun t => (histogramTypes t).isNone) with
      | some t => some ("unknown histogram type " ++ t)
      | none => none

/-- What startup observably does before entering an input loop. -/
structure StartupOutcome where
  printedError : Option String
  serverBound : Bool
  exitCode : ℕ
deriving DecidableEq

/-- The startup phase of `main`: on a validation error the message is
printed and `main` returns — a normal return from Go's `main`, so the
process exit status is `0` — before any `http.Handle` /
`ListenAndServe` call; otherwise the server is bound and an input loop
runs until end of input (also a normal exit). -/
def mainStartup (cfg : Config) : StartupOutcome :=
  match Validate cfg with
  | some msg => { printedError := some msg, serverBound := false, exitCode := 0 }
  | none => { printedError := none, serverBound := true, exitCode := 0 }

/-!
## Basic authentication

`main` wraps the metrics handler in `basicAuth` only when both
`-username` and `-password` are non-empty.  `basicAuth` extracts the
request's Basic-Auth credentials; when present it compares SHA-256
digests of the supplied and configured pairs with
`subtle.ConstantTimeCompare`.  Comparison of the two 32-byte digests
succeeds exactly when the digests are byte-equal; digest equality is
modelled as equality of the underlying strings (SHA-256
collision-freedom assumed; constant-timeness is a timing property
outside this embedding).
-/

/-- The `application` struct holding the configured credentials. -/
structure Application where
  username : String
  password : String

/-- An HTTP request, reduced to what `basicAuth` inspects: the outcome
of `r.BasicAuth()` — `none` when no well-formed Basic-Auth header is
present, otherwise the supplied username/password pair. -/
structure Request where
  creds : Option (String × String)

/-- The observable response: the wrapped metrics handler runs, or a 401
carrying the given `WWW-Authenticate` challenge header value. -/
inductive HTTPOutcome where
  | served
  | unauthorized (challengeHeader : String)
deriving DecidableEq

/-- The `WWW-Authenticate` value set on every rejected request. -/
def basicChallenge : String := "Basic realm=\"restricted\", charset=\"UTF-8\""

/-- Models `sha256.Sum256` + `subtle.ConstantTimeCompare(...) == 1` on a
supplied and a configured string: the equal-length digests compare equal
exactly when the strings are equal (collision-freedom of SHA-256). -/
def digestMatch (supplied expected : String) : Bool :=
  supplied == expected

/-- `basicAuth`: with well-formed credentials matching both the
configured username and password the wrapped handler is served;
otherwise (missing or mismatching credentials) the challenge header is
set and a 401 is written. -/
def basicAuth (app : Application) (r : Request) : HTTPOutcome :=
  match r.creds with
  | some up =>
    if digestMatch up.1 app.username && digestMatch up.2 app.password then
      .served
    else .unauthorized basicChallenge
  | none => .unauthorized basicChallenge

/-- The handler `main` installs on `/metrics`: wrapped in `basicAuth`
only when both configured username and password are non-empty
(`len(cfg.Username) > 0 && len(cfg.Password) > 0`); otherwise requests
are served with no credential check. -/
def serveMetrics (cfg : Config) (r : Request) : HTTPOutcome :=
  if 0 < cfg.Username.length ∧ 0 < cfg.Password.length then
    basicAuth { username := cfg.Username, password := cfg.Password } r
  else .served

/-- Handling one request never touches the measurement state: the
metrics handler only reads the registry for serialization, and
`basicAuth` never references the measurement at all. -/
def handleMetricsRequest (cfg : Config) (st : ℚ) (r : Request) :
    HTTPOutcome × ℚ :=
  (serveMetrics cfg r, st)

example : parseFloat "5" = some 5 := by decide
example : parseFloat "-2.5" = some (Rat.divInt (-5) 2) := by decide
example : parseFloat "abc" = none := by decide
example : parseFloat "" = none := by decide
example : parseFloat "1e3" = some 1000 := by decide
example : parseFloat "1.5e-1" = some (Rat.divInt 15 100) := by decide

/-- A non-`"+"`-headed line is handed to `ParseFloat` unchanged. -/
lemma gaugeTextToParse_of_not_add (s : String) (h : isAddLine s = false) :
    gaugeTextToParse s = s := by
  unfold gaugeTextToParse
  split
  · rename_i rest heq
    exfalso
    simp [isAddLine, heq] at h
  · rfl

/-- A `"+"`-headed line is handed to `ParseFloat` with the `"+"`
stripped. -/
lemma gaugeTextToParse_of_add (rest : List Char) :
    gaugeTextToParse (String.mk ('+' :: rest)) = String.mk rest := rfl

/-- C1: a valid numeric line typed without a `"+"` prefix replaces the
gauge's value with exactly the parsed value, whatever the prior value
was; negative values are accepted like any other. -/
theorem gauge_set_replaces_value (s : String) (v current : ℚ)
    (hplus : isAddLine s = false) (hp : parseFloat s = some v) :
    gaugeStep current s = v := by
  simp [gaugeStep, gaugeTextToParse_of_not_add s hplus, hp, hplus]

/-- Witness for C1: setting a gauge at value `7` with the negative
input `"-2.5"` yields exactly `-5/2`. -/
theorem gauge_set_replaces_value_witness :
    gaugeStep 7 "-2.5" = Rat.divInt (-5) 2 :=
  gauge_set_replaces_value "-2.5" (Rat.divInt (-5) 2) 7 (by decide) (by decide)

/-- C5: a `"+"`-prefixed valid numeric line adds exactly the parsed
value to the gauge, and adding `5` then `-5` returns any starting value
to itself (exact-arithmetic model of the `float64` state). -/
theorem gauge_add_then_subtract_roundtrip :
    (∀ (s : String) (v current : ℚ), parseFloat s = some v →
      gaugeStep current (String.mk ('+' :: s.data)) = current + v) ∧
    (∀ current : ℚ, gaugeStep (gaugeStep current "+5") "+-5" = current) := by
  have hAdd : ∀ (s : String) (v current : ℚ), parseFloat s = some v →
      gaugeStep current (String.mk ('+' :: s.data)) = current + v := by
    intro s v current hp
    have ht : gaugeTextToParse (String.mk ('+' :: s.data)) = s := by
      rw [gaugeTextToParse_of_add]
    have ha : isAddLine (String.mk ('+' :: s.data)) = true := rfl
    simp [gaugeStep, ht, hp, ha]
  refine ⟨hAdd, ?_⟩
  intro current
  have e5 : String.mk ('+' :: "5".data) = "+5" := rfl
  have em5 : String.mk ('+' :: "-5".data) = "+-5" := rfl
  have h5 : gaugeStep current "+5" = current + 5 := by
    rw [← e5]; exact hAdd "5" 5 current (by decide)
  have hm5 : gaugeStep (current + 5) "+-5" = (current + 5) + Rat.divInt (-5) 1 := by
    rw [← em5]; exact hAdd "-5" (Rat.divInt (-5) 1) (current + 5) (by decide)
  rw [h5, hm5, Rat.divInt_eq_div]
  push_cast
  ring

/-- Witness for C5: adding `"7"` to a gauge at `2` gives `2 + 7`. -/
theorem gauge_add_then_subtract_roundtrip_witness :
    gaugeStep 2 (String.mk ('+' :: "7".data)) = 2 + 7 :=
  gauge_add_then_subtract_roundtrip.1 "7" 7 2 (by decide)

/-- C4: a line whose text fails to parse as a float is a no-op for both
the gauge loop and the histogram loop — the state is unchanged and the
loop goes on with the remaining lines. -/
theorem parse_failure_is_noop (s : String) (c : ℚ) (h : HistogramState)
    (rest : List String)
    (hg : parseFloat (gaugeTextToParse s) = none) (hh : parseFloat s = none) :
    gaugeStep c s = c ∧ histogramStep h s = h ∧
    gaugeRun c (s :: rest) = gaugeRun c rest ∧
    histogramRun h (s :: rest) = histogramRun h rest := by
  have h1 : gaugeStep c s = c := by simp [gaugeStep, hg]
  have h2 : histogramStep h s = h := by simp [histogramStep, hh]
  exact ⟨h1, h2, by simp [gaugeRun, List.foldl_cons, h1],
    by simp [histogramRun, List.foldl_cons, h2]⟩

/-- Witness for C4: the line `"abc"` leaves a gauge at `3` and a
histogram untouched and the loops continue. -/
theorem parse_failure_is_noop_witness :
    gaugeStep 3 "abc" = 3 ∧
    histogramStep ⟨[1], [0], 0, 0⟩ "abc" = ⟨[1], [0], 0, 0⟩ ∧
    gaugeRun 3 ("abc" :: ["2"]) = gaugeRun 3 ["2"] ∧
    histogramRun ⟨[1], [0], 0, 0⟩ ("abc" :: ["2"]) =
      histogramRun ⟨[1], [0], 0, 0⟩ ["2"] :=
  parse_failure_is_noop "abc" 3 ⟨[1], [0], 0, 0⟩ ["2"] (by decide) (by decide)

/-- C3 counterexample: in counter mode the input loop never reads
operator lines; after one valid operator input (`"5"`) and no elapsed
ticks the counter is still `0`, not `1`. -/
theorem counter_input_not_counted :
    counterRun [CounterEvent.inputLine "5"] ≠ 1 := by decide

/-- C3 (amended): the counter is driven by the one-second ticker, not
by operator input — each tick increments it by exactly 1 and typed
lines are ignored, so after any event sequence the counter equals the
number of ticks in it. -/
theorem counter_counts_ticks (events : List CounterEvent) :
    counterRun events = tickCount events := by
  suffices h : ∀ c : ℕ, events.foldl counterStep c = c + tickCount events by
    simpa [counterRun] using h 0
  induction events with
  | nil => intro c; simp [tickCount]
  | cons e es ih =>
    intro c
    cases e with
    | tick =>
      simp only [List.foldl_cons, counterStep, ih, tickCount,
        List.filter_cons]
      simp [tickCount] at ih ⊢
      omega
    | inputLine s =>
      simp only [List.foldl_cons, counterStep, ih, tickCount,
        List.filter_cons]
      simp [tickCount] at ih ⊢

/-- C8: the counter never decreases: it starts at `0` and no event — a
tick or an (ignored) operator line — takes it below its previous
value. -/
theorem counter_monotone :
    counterRun [] = 0 ∧
    ∀ (events : List CounterEvent) (e : CounterEvent),
      counterRun events ≤ counterRun (events ++ [e]) := by
  refine ⟨rfl, ?_⟩
  intro events e
  simp only [counterRun, List.foldl_append, List.foldl_cons, List.foldl_nil]
  cases e <;> simp [counterStep]

/-- Indexed form of the bucket update: position `i` of the zipped-mapped
cumulative counts gets `+1` exactly when the observed value is at most
the `i`-th boundary. -/
lemma bucket_update_getD (x : ℚ) :
    ∀ (bnd : List ℚ) (cnt : List ℕ) (i : ℕ),
      cnt.length = bnd.length → i < bnd.length →
      ((bnd.zip cnt).map (fun bc => if x ≤ bc.1 then bc.2 + 1 else bc.2)).getD i 0 =
        if x ≤ bnd.getD i 0 then cnt.getD i 0 + 1 else cnt.getD i 0 := by
  intro bnd
  induction bnd with
  | nil => intro cnt i _ hi; simp at hi
  | cons b bs ih =>
    intro cnt i hlen hi
    cases cnt with
    | nil => simp at hlen
    | cons c cs =>
      cases i with
      | zero => simp
      | succ j =>
        simp only [List.zip_cons_cons, List.map_cons, List.getD_cons_succ]
        exact ih cs j (by simpa using hlen) (by simpa using hi)

/-- C2: `observe x` adds 1 to the total count, adds `x` to the running
sum, and increments exactly the buckets whose upper bound is `≥ x`; with
boundaries `[1, 10, 100]`, observing `5` increments the buckets for `10`
and `100` but not `1`, and observing `1000` increments none of the three,
only the total count and the sum. -/
theorem observe_updates_buckets :
    (∀ (h : HistogramState) (x : ℚ) (i : ℕ),
        h.bucketCounts.length = h.boundaries.length →
        i < h.boundaries.length →
        (observe h x).totalCount = h.totalCount + 1 ∧
        (observe h x).sum = h.sum + x ∧
        (observe h x).bucketCounts.getD i 0 =
          (if x ≤ h.boundaries.getD i 0 then h.bucketCounts.getD i 0 + 1
           else h.bucketCounts.getD i 0)) ∧
    (observe ⟨[1, 10, 100], [3, 4, 5], 9, 2⟩ 5).bucketCounts = [3, 5, 6] ∧
    (observe ⟨[1, 10, 100], [3, 4, 5], 9, 2⟩ 5).totalCount = 10 ∧
    (observe ⟨[1, 10, 100], [3, 4, 5], 9, 2⟩ 5).sum = 7 ∧
    (observe ⟨[1, 10, 100], [3, 4, 5], 9, 2⟩ 1000).bucketCounts = [3, 4, 5] ∧
    (observe ⟨[1, 10, 100], [3, 4, 5], 9, 2⟩ 1000).totalCount = 10 ∧
    (observe ⟨[1, 10, 100], [3, 4, 5], 9, 2⟩ 1000).sum = 1002 := by
  refine ⟨?_, by decide, by decide, ?_, by decide, by decide, ?_⟩
  · intro h x i hlen hi
    exact ⟨rfl, rfl, bucket_update_getD x h.boundaries h.bucketCounts i hlen hi⟩
  · show (2 : ℚ) + 5 = 7
    norm_num
  · show (2 : ℚ) + 1000 = 1002
    norm_num

/-- Witness for C2: observing `5` against boundaries `[1, 10, 100]`
updates total count, sum, and the middle bucket (boundary `10`). -/
theorem observe_updates_buckets_witness :
    (observe ⟨[1, 10, 100], [3, 4, 5], 9, 2⟩ 5).totalCount = 9 + 1 ∧
    (observe ⟨[1, 10, 100], [3, 4, 5], 9, 2⟩ 5).sum = 2 + 5 ∧
    (observe ⟨[1, 10, 100], [3, 4, 5], 9, 2⟩ 5).bucketCounts.getD 1 0 =
      (if (5 : ℚ) ≤ ([1, 10, 100] : List ℚ).getD 1 0
       then ([3, 4, 5] : List ℕ).getD 1 0 + 1
       else ([3, 4, 5] : List ℕ).getD 1 0) :=
  observe_updates_buckets.1 ⟨[1, 10, 100], [3, 4, 5], 9, 2⟩ 5 1
    (by decide) (by decide)

/-- A configuration whose metric type is unknown, or whose
histogram-type flag names an unknown histogram type, makes `Validate`
return an error. -/
lemma Validate_isSome_of_bad (cfg : Config)
    (hbad : metricTypes cfg.MetricType = none ∨
      ∃ t ∈ splitOnComma cfg.HistogramType, histogramTypes t = none) :
    ∃ msg, Validate cfg = some msg := by
  rcases hbad with h | h
  · refine ⟨"unknown metric type " ++ cfg.MetricType, ?_⟩
    simp [Validate, h]
  · obtain ⟨t, htmem, hnone⟩ := h
    unfold Validate
    cases hm : metricTypes cfg.MetricType with
    | none => exact ⟨_, rfl⟩
    | some mt =>
      have hne : ¬ (splitOnComma cfg.HistogramType).isEmpty = true := by
        cases hsp : splitOnComma cfg.HistogramType with
        | nil => rw [hsp] at htmem; cases htmem
        | cons a as => simp
      obtain ⟨u, hu⟩ : ∃ u, (splitOnComma cfg.HistogramType).find?
          (fun t => (histogramTypes t).isNone) = some u := by
        cases hfind : (splitOnComma cfg.HistogramType).find?
            (fun t => (histogramTypes t).isNone) with
        | some u => exact ⟨u, rfl⟩
        | none =>
          rw [List.find?_eq_none] at hfind
          exact absurd (by simp [hnone]) (hfind t htmem)
      refine ⟨"unknown histogram type " ++ u, ?_⟩
      simp [hne, hu]

/-- C6 counterexample: starting with the unknown metric type `"foo"`
prints a descriptive error and binds no server, but the process exit
status is `0` — `main` just returns — not non-zero as claimed. -/
theorem invalid_kind_exit_status_zero :
    (mainStartup ⟨":5001", "foo", "classic", "", ""⟩).printedError =
      some "unknown metric type foo" ∧
    (mainStartup ⟨":5001", "foo", "classic", "", ""⟩).serverBound = false ∧
    (mainStartup ⟨":5001", "foo", "classic", "", ""⟩).exitCode = 0 := by
  refine ⟨?_, ?_, ?_⟩ <;> decide

/-- C6 (amended): an unknown metric type, or an unrecognized name in the
histogram-type list, makes startup print a descriptive error and return
before any HTTP server is bound or started; the process then exits
normally with status `0` (not non-zero). -/
theorem invalid_config_rejected (cfg : Config)
    (hbad : metricTypes cfg.MetricType = none ∨
      ∃ t ∈ splitOnComma cfg.HistogramType, histogramTypes t = none) :
    (∃ msg, (mainStartup cfg).printedError = some msg) ∧
    (mainStartup cfg).serverBound = false ∧
    (mainStartup cfg).exitCode = 0 := by
  obtain ⟨msg, hv⟩ := Validate_isSome_of_bad cfg hbad
  refine ⟨⟨msg, ?_⟩, ?_, ?_⟩ <;> simp [mainStartup, hv]

/-- Witness for C6 (amended): unknown metric type `"foo"`. -/
theorem invalid_config_rejected_witness :
    (∃ msg, (mainStartup ⟨":5001", "foo", "classic", "", ""⟩).printedError =
      some msg) ∧
    (mainStartup ⟨":5001", "foo", "classic", "", ""⟩).serverBound = false ∧
    (mainStartup ⟨":5001", "foo", "classic", "", ""⟩).exitCode = 0 :=
  invalid_config_rejected ⟨":5001", "foo", "classic", "", ""⟩
    (Or.inl (by decide))

/-- C9: the histogram-type flag is validated whatever the metric type:
even with a valid non-histogram metric type such as `"gauge"`, an
unrecognized histogram-type name makes `Validate` fail and startup
refuses to bind a server. -/
theorem histogram_flag_checked_unconditionally (cfg : Config)
    (mt : MetricType) (t : String)
    (_hmt : metricTypes cfg.MetricType = some mt)
    (htmem : t ∈ splitOnComma cfg.HistogramType)
    (hbad : histogramTypes t = none) :
    Validate cfg ≠ none ∧ (mainStartup cfg).serverBound = false := by
  obtain ⟨msg, hv⟩ := Validate_isSome_of_bad cfg (Or.inr ⟨t, htmem, hbad⟩)
  constructor
  · rw [hv]; exact Option.some_ne_none msg
  · simp [mainStartup, hv]

/-- Witness for C9: metric type `"gauge"` with histogram type
`"bogus"` is rejected even though no histogram would be built. -/
theorem histogram_flag_checked_unconditionally_witness :
    Validate ⟨":5001", "gauge", "bogus", "", ""⟩ ≠ none ∧
    (mainStartup ⟨":5001", "gauge", "bogus", "", ""⟩).serverBound = false :=
  histogram_flag_checked_unconditionally ⟨":5001", "gauge", "bogus", "", ""⟩
    MetricType.Gauge "bogus" (by decide) (by decide) (by decide)

/-- C7: with both a username and a password configured, a request to the
metrics path is served exactly when it presents the configured
credential pair; any missing or mismatching credentials get a 401 with
the `WWW-Authenticate` challenge, and the measurement state is left
untouched either way. -/
theorem basic_auth_served_iff_match (cfg : Config) (r : Request) (st : ℚ)
    (hu : 0 < cfg.Username.length) (hp : 0 < cfg.Password.length) :
    (serveMetrics cfg r = .served ↔
      r.creds = some (cfg.Username, cfg.Password)) ∧
    (r.creds ≠ some (cfg.Username, cfg.Password) →
      serveMetrics cfg r = .unauthorized basicChallenge) ∧
    (handleMetricsRequest cfg st r).2 = st := by
  have hcond : 0 < cfg.Username.length ∧ 0 < cfg.Password.length := ⟨hu, hp⟩
  refine ⟨?_, ?_, rfl⟩ <;>
    simp only [serveMetrics, if_pos hcond, basicAuth, digestMatch]
  · cases hc : r.creds with
    | none => simp
    | some up =>
      obtain ⟨u, p⟩ := up
      by_cases heu : u = cfg.Username <;> by_cases hep : p = cfg.Password <;>
        simp [heu, hep]
  · intro hne
    cases hc : r.creds with
    | none => simp
    | some up =>
      obtain ⟨u, p⟩ := up
      rw [hc] at hne
      have : ¬ (u = cfg.Username ∧ p = cfg.Password) := by
        intro ⟨h1, h2⟩
        exact hne (by rw [h1, h2])
      by_cases heu : u = cfg.Username
      · by_cases hep : p = cfg.Password
        · exact absurd ⟨heu, hep⟩ this
        · simp [heu, hep]
      · simp [heu]

/-- Witness for C7: matching credentials are served; the configured pair
is `alice`/`secret`. -/
theorem basic_auth_served_iff_match_witness :
    serveMetrics ⟨":5001", "gauge", "classic", "alice", "secret"⟩
      ⟨some ("alice", "secret")⟩ = .served :=
  (basic_auth_served_iff_match
    ⟨":5001", "gauge", "classic", "alice", "secret"⟩
    ⟨some ("alice", "secret")⟩ 3 (by decide) (by decide)).1.mpr rfl

/-- C10: basic auth is enforced only when both credentials are
configured non-empty; with either one empty, every request — even one
with no or wrong credentials — is served without a check. -/
theorem auth_skipped_unless_both_set (cfg : Config) (r : Request)
    (h : cfg.Username.length = 0 ∨ cfg.Password.length = 0) :
    serveMetrics cfg r = .served := by
  unfold serveMetrics
  rw [if_neg]
  rcases h with h | h <;> omega

/-- Witness for C10: username configured but password empty — a request
with wrong credentials is still served. -/
theorem auth_skipped_unless_both_set_witness :
    serveMetrics ⟨":5001", "gauge", "classic", "alice", ""⟩
      ⟨some ("eve", "x")⟩ = .served :=
  auth_skipped_unless_both_set ⟨":5001", "gauge", "classic", "alice", ""⟩
    ⟨some ("eve", "x")⟩ (Or.inr (by decide))
